import Mathlib

set_option maxRecDepth 100000

/-!
Verification of the session-orchestration core of `cccc`, a terminal
multiplexer for interactive CLI agent sessions.  Output chunks are
modelled as `List Char`, registry state as explicit Lean structures, and
the external `tmux` round trips as abstract query results passed in as
parameters.  All definitions are shallow embeddings of the TypeScript
source (`src/utils/sessionUtils.ts`, `src/utils/tmuxUtils.ts`,
`src/hooks/useSessionManager.ts`, `src/hooks/useTerminalController.ts`,
`src/index.tsx`).
-/

namespace Cccc

/-! ### Basic JavaScript string semantics over `List Char` -/

/-- Models JavaScript `\s` / `String.prototype.trim` whitespace. -/
def isWsChar (c : Char) : Bool := c.isWhitespace

/-- Models `String.prototype.trim`: drop whitespace at both ends. -/
def jsTrim (l : List Char) : List Char :=
  ((l.dropWhile isWsChar).reverse.dropWhile isWsChar).reverse

/-- Models `String.prototype.toLowerCase` (ASCII-relevant part). -/
def jsToLower (l : List Char) : List Char := l.map Char.toLower

/-- Models `String.prototype.split("\n")`: always returns at least one
(possibly empty) segment. -/
def splitOnNl : List Char → List (List Char)
  | [] => [[]]
  | c :: cs =>
    let r := splitOnNl cs
    if c = '\n' then [] :: r
    else
      match r with
      | [] => [[c]]
      | h :: t => (c :: h) :: t

/-- Models `String.prototype.includes`: substring containment. -/
def containsSub (hay needle : List Char) : Bool :=
  needle.isPrefixOf hay ||
    match hay with
    | [] => false
    | _ :: t => containsSub t needle

/-- Models `str.endsWith(c)` for a single character. -/
def endsWithChar (l : List Char) (c : Char) : Bool := l.getLast? == some c

/-- Models `Array.prototype.slice(-n)` / the last-`n` window of a list. -/
def lastN (n : Nat) (l : List α) : List α := l.drop (l.length - n)

/-- Models `Array.prototype.join(" ")`. -/
def joinWithSpace : List (List Char) → List Char
  | [] => []
  | [l] => l
  | l :: ls => l ++ ' ' :: joinWithSpace ls

/-- Auxiliary scanner for `collapseWs`; the flag records whether the
previous character was whitespace (already emitted as one space). -/
def collapseWsAux : Bool → List Char → List Char
  | _, [] => []
  | prevWs, c :: cs =>
    if isWsChar c then
      if prevWs then collapseWsAux true cs
      else ' ' :: collapseWsAux true cs
    else c :: collapseWsAux false cs

/-- Models `String.prototype.replace(/\s+/g, " ")`: every maximal run of
whitespace becomes a single space. -/
def collapseWs (l : List Char) : List Char := collapseWsAux false l

/-! ### Model of the `strip-ansi` dependency

Modelled from the spec: the third-party `strip-ansi` npm package used by
`src/utils/sessionUtils.ts` is not part of this repository; the spec
describes it as "removing terminal formatting codes".  The model below
follows the structure of its `ansi-regex` pattern: an ESC (`\x1B`) or CSI
(`\x9B`) introducer, a run of `[ ] ( ) # ; ?` prefix characters, then
either an OSC-style body terminated by BEL / `ESC \` / `\x9C`, or a
CSI-style parameter list followed by a final byte.  On text containing no
escape introducers it is the identity, which is all the concrete claims
below rely on. -/

/-- Characters allowed right after the escape introducer
(`[[\]()#;?]*` in `ansi-regex`). -/
def ansiIntroChar (c : Char) : Bool :=
  c = '[' || c = ']' || c = '(' || c = ')' || c = '#' || c = ';' || c = '?'

/-- Body characters of the OSC-style branch of `ansi-regex`
(`[-a-zA-Z\d\/#&.:=?%@~_]` together with the `;` separators). -/
def ansiBodyChar (c : Char) : Bool :=
  c.isAlphanum || c = '-' || c = '/' || c = '#' || c = '&' || c = '.' ||
    c = ':' || c = '=' || c = '?' || c = '%' || c = '@' || c = '~' ||
    c = '_' || c = ';'

/-- Final byte of the CSI-style branch (`[\dA-PR-TZcf-nq-uy=><~]`). -/
def ansiCsiFinal (c : Char) : Bool :=
  c.isDigit || ('A' ≤ c && c ≤ 'P') || ('R' ≤ c && c ≤ 'T') || c = 'Z' ||
    c = 'c' || ('f' ≤ c && c ≤ 'n') || ('q' ≤ c && c ≤ 'u') || c = 'y' ||
    c = '=' || c = '>' || c = '<' || c = '~'

/-- Scan the OSC-style body up to a terminator (BEL, `ESC \`, or `\x9C`);
returns the rest of the input after the terminator, or `none`. -/
def scanOscBody : List Char → Option (List Char)
  | [] => none
  | c :: cs =>
    if c = '\x07' || c = '\x9C' then some cs
    else if c = '\x1B' then
      match cs with
      | '\\' :: cs2 => some cs2
      | _ => none
    else if ansiBodyChar c then scanOscBody cs
    else none

/-- Take up to `k` leading decimal digits. -/
def takeDigitsUpTo : Nat → List Char → List Char
  | 0, l => l
  | _ + 1, [] => []
  | k + 1, c :: cs => if c.isDigit then takeDigitsUpTo k cs else c :: cs

/-- Consume the `(?:;\d{0,4})*` groups of the CSI branch; fuelled, each
step consumes at least the leading `;`. -/
def scanCsiGroupsGo : Nat → List Char → List Char
  | 0, l => l
  | _ + 1, [] => []
  | fuel + 1, c :: cs =>
    if c = ';' then scanCsiGroupsGo fuel (takeDigitsUpTo 4 cs) else c :: cs

/-- The CSI-style branch: optional `\d{1,4}(;\d{0,4})*` parameters, then a
final byte; returns the rest after the final byte, or `none`. -/
def scanCsiParams (l : List Char) : Option (List Char) :=
  let afterParams :=
    match l with
    | c :: cs =>
      if c.isDigit then scanCsiGroupsGo cs.length (takeDigitsUpTo 3 cs) else l
    | [] => l
  match afterParams with
  | c :: cs => if ansiCsiFinal c then some cs else none
  | [] => none

/-- Fuelled scanner for `stripAnsi`; every step consumes at least one
input character, so fuel `= length` suffices. -/
def stripAnsiGo : Nat → List Char → List Char
  | 0, l => l
  | _ + 1, [] => []
  | fuel + 1, c :: cs =>
    if c = '\x1B' || c = '\x9B' then
      let cs1 := cs.dropWhile ansiIntroChar
      match scanOscBody cs1 with
      | some rest => stripAnsiGo fuel rest
      | none =>
        match scanCsiParams cs1 with
        | some rest => stripAnsiGo fuel rest
        | none => c :: stripAnsiGo fuel cs
    else c :: stripAnsiGo fuel cs

/-- Models `stripAnsi` from the `strip-ansi` npm package: remove all ANSI
terminal formatting sequences. -/
def stripAnsi (l : List Char) : List Char := stripAnsiGo l.length l

/-! ### Status Classifier and Preview Extractor
(`src/utils/sessionUtils.ts`) -/

/-- Constant `SESSION_PREVIEW_LENGTH` from `sessionUtils.ts`. -/
def SESSION_PREVIEW_LENGTH : Nat := 200

/-- The raw `FILTER_PATTERNS` literals from `sessionUtils.ts` (before the
`.map(p => p.toLowerCase())` the source applies). -/
def FILTER_PATTERNS_RAW : List (List Char) :=
  [String.toList "│ ",
   String.toList " │",
   String.toList "╭",
   String.toList "╮",
   String.toList "╰",
   String.toList "╯",
   String.toList "use /ide to connect to your ide",
   String.toList "esc to interrupt",
   String.toList "※ tip:",
   String.toList "? for shortcuts",
   String.toList "auto-accept edits on",
   String.toList "plan mode on"]

/-- Table `FILTER_PATTERNS`: the raw patterns lowercased, as in the source. -/
def FILTER_PATTERNS : List (List Char) := FILTER_PATTERNS_RAW.map jsToLower

/-- Table `RUNNING_PATTERNS` from `sessionUtils.ts`. -/
def RUNNING_PATTERNS : List (List Char) := [String.toList "esc to interrupt"]

/-- Table `AWAITING_INPUT_PATTERNS` from `sessionUtils.ts`. -/
def AWAITING_INPUT_PATTERNS : List (List Char) :=
  [String.toList "│ do you want", String.toList "│ would you like"]

/-- Session status enumeration (`"Idle" | "Running" | "Awaiting Input"`). -/
inductive SessionStatus where
  | idle
  | running
  | awaitingInput
  deriving DecidableEq, Repr

/-- Whether `line.trim().toLowerCase()` matches some `RUNNING_PATTERNS` entry. -/
def matchesRunning (line : List Char) : Bool :=
  RUNNING_PATTERNS.any (fun pattern => containsSub (jsToLower (jsTrim line)) pattern)

/-- Whether `line.trim().toLowerCase()` matches some `AWAITING_INPUT_PATTERNS`
entry. -/
def matchesAwaiting (line : List Char) : Bool :=
  AWAITING_INPUT_PATTERNS.any
    (fun pattern => containsSub (jsToLower (jsTrim line)) pattern)

/-- The `for (const line of lines.reverse())` loop of `getSessionStatus`:
per line, running patterns are consulted before awaiting-input patterns. -/
def scanStatusLines : List (List Char) → SessionStatus
  | [] => .idle
  | line :: rest =>
    if matchesRunning line then .running
    else if matchesAwaiting line then .awaitingInput
    else scanStatusLines rest

/-- The cleaned, line-split view of the last 100 chunks used by
`getSessionStatus`. -/
def statusLines (outputs : List (List Char)) : List (List Char) :=
  splitOnNl (stripAnsi (lastN 100 outputs).flatten)

/-- The trailing-punctuation check of `getSessionStatus`: the literal
last line, trimmed, is non-empty and ends with `:` or `?`. -/
def lastLinePromptCheck (outputs : List (List Char)) : Bool :=
  let lastLine := jsTrim (((statusLines outputs).getLast?).getD [])
  !lastLine.isEmpty && (endsWithChar lastLine ':' || endsWithChar lastLine '?')

/-- Function `getSessionStatus` from `sessionUtils.ts`: empty buffer is Idle;
otherwise, over the last 100 chunks, ANSI-stripped: if the last line
(trimmed) ends with `:` or `?`, Awaiting Input; otherwise scan the lines
most-recent-first against the running and awaiting-input pattern sets. -/
def getSessionStatus (outputs : List (List Char)) : SessionStatus :=
  if outputs.isEmpty then .idle
  else if lastLinePromptCheck outputs then .awaitingInput
  else scanStatusLines (statusLines outputs).reverse

/-- The line filter of `getSessionPreview`: keep lines whose trimmed text
is non-empty and contains none of the `FILTER_PATTERNS`. -/
def previewLineKept (line : List Char) : Bool :=
  let trimmedLine := jsTrim line
  !trimmedLine.isEmpty &&
    FILTER_PATTERNS.all
      (fun pattern => !containsSub (jsToLower trimmedLine) pattern)

/-- The normalized preview text of `getSessionPreview` before truncation:
last 10 chunks, ANSI-stripped, noise lines dropped, remaining lines
joined with single spaces, whitespace collapsed, trimmed. -/
def previewText (outputs : List (List Char)) : List Char :=
  let cleanOutput := stripAnsi (lastN 10 outputs).flatten
  let lines := (splitOnNl cleanOutput).filter previewLineKept
  jsTrim (collapseWs (joinWithSpace lines))

/-- Function `getSessionPreview` from `sessionUtils.ts`: the normalized preview
text, truncated to an ellipsis plus the trailing
`SESSION_PREVIEW_LENGTH` characters when it exceeds the budget. -/
def getSessionPreview (outputs : List (List Char)) : List Char :=
  if outputs.isEmpty then []
  else
    let preview := previewText outputs
    if preview.length ≤ SESSION_PREVIEW_LENGTH then preview
    else '…' :: lastN SESSION_PREVIEW_LENGTH preview

/-! ### Decimal rendering of the session counter

Models the JavaScript template interpolation `${sessionCounter.current}`
in `useSessionManager.ts` (decimal rendering of a non-negative integer,
no leading zeros). -/

/-- Decimal digit list of `n`, most significant first. -/
def natToDecimal (n : Nat) : List Char :=
  if _h : n < 10 then [Nat.digitChar n]
  else natToDecimal (n / 10) ++ [Nat.digitChar (n % 10)]
  termination_by n
  decreasing_by
    exact Nat.div_lt_self (by omega) (by omega)

/-- Numeric value of a decimal digit character. -/
def decDigitVal (c : Char) : Nat := c.toNat - '0'.toNat

/-- Read a decimal digit list back into a number (used to show
`natToDecimal` is injective, hence generated ids never collide). -/
def decFromDigits (l : List Char) : Nat :=
  l.foldl (fun a c => a * 10 + decDigitVal c) 0

/-! ### Terminal Backend Adapter (`src/utils/tmuxUtils.ts`) -/

/-- Structure `TmuxSession` from `tmuxUtils.ts`; the `ChildProcess` output monitor
is an opaque handle. -/
structure TmuxSession where
  sessionName : String
  paneName : String
  outputMonitor : Option Nat
  lastCapturedLine : Nat
  deriving DecidableEq, Repr

/-- Outcomes of the `execSync` round trips made by `createTmuxSession`:
whether `tmux new-session` succeeds, whether `which tmux` succeeds,
whether `which <command>` succeeds, and the message of the underlying
creation error. -/
structure TmuxEnv where
  createOk : Bool
  tmuxInstalled : Bool
  commandFound : Bool
  createErrMsg : String
  deriving DecidableEq, Repr

/-- Models `command.split(" ")[0]`. -/
def firstWord (command : String) : String := (command.splitOn " ").headD ""

/-- Function `createTmuxSession` from `tmuxUtils.ts`: on success a fresh handle
with capture cursor 0; on failure one of three distinct errors — tmux
missing, wrapped command binary missing, or a generic creation failure
carrying the underlying message. -/
def createTmuxSession (sessionName command : String) (env : TmuxEnv) :
    Except String TmuxSession :=
  if env.createOk then
    .ok { sessionName := sessionName, paneName := sessionName ++ "-pane",
          outputMonitor := none, lastCapturedLine := 0 }
  else if !env.tmuxInstalled then
    .error "tmux is not installed. Please install tmux to use this application."
  else if !env.commandFound then
    .error ("Command \x27" ++ firstWord command ++
      "\x27 not found. Make sure Claude CLI is installed and in your PATH.")
  else
    .error ("Failed to create tmux session: " ++ env.createErrMsg)

/-- Models `tmux capture-pane -p -S start -E end`: the pane history lines
from `startLine` to `endLine` inclusive, each followed by a newline. -/
def capturePaneRange (history : List (List Char)) (startLine endLine : Nat) :
    List Char :=
  ((history.drop startLine).take (endLine + 1 - startLine)).foldr
    (fun line acc => line ++ '\n' :: acc) []

/-- Function `captureIncrementalOutput` from `tmuxUtils.ts`, with the pane history
(whose length is tmux's `history_size`) passed in as the result of the
external query: when the recorded cursor has reached the history size,
empty output and the history size as the new cursor; otherwise the lines
from the cursor up to `historySize - 1` and the history size as the new
cursor. -/
def captureIncrementalOutput (lastCapturedLine : Nat)
    (history : List (List Char)) : List Char × Nat :=
  let historySize := history.length
  if lastCapturedLine ≥ historySize then ([], historySize)
  else (capturePaneRange history lastCapturedLine (historySize - 1), historySize)

/-- Function `hasCommandExited` from `tmuxUtils.ts`, with the
`tmux list-panes … "#{pane_dead\x7d"` round trip passed in as an
`Except`: a failed query yields `true`; a successful one compares the
trimmed pane info against `"1"`. -/
def hasCommandExited (queryResult : Except String (List Char)) : Bool :=
  match queryResult with
  | .ok paneInfo => jsTrim paneInfo == String.toList "1"
  | .error _ => true

/-! ### Session Registry and Active Session Multiplexer
(`src/hooks/useSessionManager.ts`, `src/hooks/useTerminalController.ts`,
`src/index.tsx`) -/

/-- The `Screen` union type (`src/constants.ts` / `src/types.ts`). -/
inductive Screen where
  | menu
  | claude
  | worktree
  | branchInput
  | settingsSelect
  | worktreeManager
  | sessionSelector
  deriving DecidableEq, Repr

/-- The `Session` entity (`src/types.ts`); disposables and timers are
opaque handles. -/
structure Session where
  id : String
  tmuxSession : TmuxSession
  outputs : List (List Char)
  lastUpdated : Nat
  status : SessionStatus
  preview : List Char
  workingDirectory : Option String
  branch : Option String
  repoName : Option String
  settingsPath : Option String
  settingsName : Option String
  dataDisposable : Option Nat
  exitCheckInterval : Option Nat
  deriving DecidableEq, Repr

/-- Constant `SESSION_PREFIX` from `src/constants.ts`. -/
def SESSION_PREFIX_STR : String := "session-"

/-- The id produced for counter value `k`:
`` `${SESSION_PREFIX\x7d${counter\x7d` ``. -/
def mkSessionId (k : Nat) : String :=
  SESSION_PREFIX_STR ++ String.mk (natToDecimal k)

/-- Combined state of `useSessionManager` plus the bytes written to the
real terminal (`process.stdout`). -/
structure AppState where
  sessions : List Session
  currentScreen : Screen
  currentSessionId : Option String
  error : Option String
  sessionCounter : Nat
  terminalOut : List Char
  deriving DecidableEq, Repr

/-- The initial hook state: no sessions, menu screen, counter 0. -/
def initialAppState : AppState :=
  { sessions := [], currentScreen := .menu, currentSessionId := none,
    error := none, sessionCounter := 0, terminalOut := [] }

/-- Function `generateSessionId`: increment the counter and render the id. -/
def generateSessionId (st : AppState) : String × AppState :=
  let c := st.sessionCounter + 1
  (mkSessionId c, { st with sessionCounter := c })

/-- Function `addSession`: `setSessions(prev => [...prev, session])`. -/
def addSession (st : AppState) (session : Session) : AppState :=
  { st with sessions := st.sessions ++ [session] }

/-- Function `removeSession`: dispose the found session's listener and timer
(opaque effects), then `prev.filter(s => s.id !== sessionId)`. -/
def removeSession (st : AppState) (sessionId : String) : AppState :=
  { st with sessions := st.sessions.filter (fun s => !(s.id == sessionId)) }

/-- Function `findSession`: `sessions.find(s => s.id === sessionId)`. -/
def findSession (st : AppState) (sessionId : String) : Option Session :=
  st.sessions.find? (fun s => s.id == sessionId)

/-- Function `switchToMenu` (tmux-era `useSessionManager`): menu screen, no
current session, error cleared. -/
def switchToMenu (st : AppState) : AppState :=
  { st with currentScreen := .menu, currentSessionId := none, error := none }

/-- Function `switchToSession`: claude screen, current session set. -/
def switchToSession (st : AppState) (sessionId : String) : AppState :=
  { st with currentScreen := .claude, currentSessionId := some sessionId }

/-- The `setSessions` updater of `appendOutput`: append the chunk to the
matching session's buffer and recompute `lastUpdated`, `status` and
`preview`; every other session is returned unchanged. -/
def appendOutput (sessions : List Session) (sessionId : String)
    (output : List Char) (now : Nat) : List Session :=
  sessions.map fun session =>
    if session.id == sessionId then
      let newOutputs := session.outputs ++ [output]
      { session with
        outputs := newOutputs
        lastUpdated := now
        status := getSessionStatus newOutputs
        preview := getSessionPreview newOutputs }
    else session

/-- An abstract add/remove step against the registry, as driven by
`launchNewSession` (which generates the id via `generateSessionId`
before `addSession`) and `removeSession`. -/
inductive RegistryOp where
  | add (template : Session)
  | remove (sessionId : String)

/-- One registry step: `add` stamps the freshly generated id onto the
template and appends it; `remove` filters by id. -/
def registryStep (st : AppState) : RegistryOp → AppState
  | .add template =>
    let (sid, st1) := generateSessionId st
    addSession st1 { template with id := sid }
  | .remove sessionId => removeSession st sessionId

/-- Run a sequence of registry operations from the initial state. -/
def registryRun (ops : List RegistryOp) : AppState :=
  ops.foldl registryStep initialAppState

/-- The `isActive` predicate supplied to the persistent data listener in
`launchNewSession`:
`screenRef.current === SCREENS.CLAUDE && sessionIdRef.current === sessionId`. -/
def isActive (sessionId : String) (st : AppState) : Bool :=
  st.currentScreen == Screen.claude && st.currentSessionId == some sessionId

/-- Delivery of one output-monitor chunk for session `sessionId`
(`setupPersistentDataListener` in `useTerminalController.ts`, wired in
`launchNewSession`): the chunk is always appended to the session's
buffer via `appendOutput`; the bytes are written to the real terminal
only when `isActive` holds. -/
def deliverOutputChunk (sessionId : String) (data : List Char) (now : Nat)
    (st : AppState) : AppState :=
  let st1 := { st with sessions := appendOutput st.sessions sessionId data now }
  if isActive sessionId st1 then
    { st1 with terminalOut := st1.terminalOut ++ data }
  else st1

/-- Constant `TERMINAL_CONFIG.PROCESS_NAME`. -/
def PROCESS_NAME : String := "claude"

/-- Constant `TERMINAL_CONFIG.CLEAR_SCREEN_SEQUENCE`. -/
def CLEAR_SCREEN_SEQ : List Char := String.toList "\x1b[2J\x1b[H"

/-- Function `clearScreen`: write the clear sequence to the real terminal. -/
def clearScreen (st : AppState) : AppState :=
  { st with terminalOut := st.terminalOut ++ CLEAR_SCREEN_SEQ }

/-- The command string built in `createTmuxProcess`
(`useTerminalController.ts`). -/
def commandOfArgs (args : List String) : String :=
  if args.length > 0 then PROCESS_NAME ++ " " ++ String.intercalate " " args
  else PROCESS_NAME

/-- Function `launchNewSession` from `src/index.tsx`: generate an id, clear the
screen, create the tmux session; on failure record the error message,
clear the screen and switch to the menu (which, in this
`useSessionManager`, also resets the error field) with no session added;
on success register the new session and activate it.  The git metadata
and the opaque listener/timer handles are passed in as parameters. -/
def launchNewSession (st : AppState) (args : List String) (env : TmuxEnv)
    (workingDirectory settingsPath settingsName branch repoName : Option String)
    (monitorHandle timerHandle : Nat) (now : Nat) : AppState :=
  let (sessionId, st1) := generateSessionId st
  let st2 := clearScreen st1
  match createTmuxSession sessionId (commandOfArgs args) env with
  | .error errorMessage =>
    switchToMenu (clearScreen { st2 with error := some errorMessage })
  | .ok tmuxSession =>
    let newSession : Session :=
      { id := sessionId, tmuxSession := tmuxSession, outputs := [],
        lastUpdated := now, status := .idle, preview := [],
        workingDirectory := workingDirectory, branch := branch,
        repoName := repoName, settingsPath := settingsPath,
        settingsName := settingsName, dataDisposable := some monitorHandle,
        exitCheckInterval := some timerHandle }
    switchToSession (addSession st2 newSession) sessionId

/-- The claim-side reading of the prompt check in the spec's words: the
last non-blank line of the cleaned status window. -/
def specLastNonBlankLine (outputs : List (List Char)) : List Char :=
  (((statusLines outputs).filter (fun l => !(jsTrim l).isEmpty)).getLast?).getD []

/-- Registry invariant: every stored id was generated from some counter
value at most the current one, and the stored ids are pairwise
distinct. -/
def RegistryInv (st : AppState) : Prop :=
  (∀ s ∈ st.sessions, ∃ k, 1 ≤ k ∧ k ≤ st.sessionCounter ∧ s.id = mkSessionId k) ∧
  (st.sessions.map Session.id).Nodup

/-- A sample tmux handle used by concrete witnesses. -/
def sampleTmux : TmuxSession :=
  { sessionName := "session-1", paneName := "session-1-pane",
    outputMonitor := none, lastCapturedLine := 0 }

/-- A sample session used by concrete witnesses. -/
def sampleSession : Session :=
  { id := "session-1", tmuxSession := sampleTmux, outputs := [],
    lastUpdated := 0, status := .idle, preview := [],
    workingDirectory := none, branch := none, repoName := none,
    settingsPath := none, settingsName := none, dataDisposable := some 0,
    exitCheckInterval := some 0 }

/-- A sample state whose displayed screen is the session screen for
`sampleSession`. -/
def activeState : AppState :=
  { sessions := [sampleSession], currentScreen := .claude,
    currentSessionId := some "session-1", error := none,
    sessionCounter := 1, terminalOut := [] }

/-- A sample environment where every tmux round trip fails. -/
def failEnv : TmuxEnv :=
  { createOk := false, tmuxInstalled := false, commandFound := false,
    createErrMsg := "boom" }

end Cccc

/-! Sanity examples (mirroring `sessionUtils.test.ts`). -/

example : Cccc.getSessionStatus [] = .idle := by decide

example :
    Cccc.getSessionStatus [String.toList "Enter your name:"] = .awaitingInput := by
  decide

example :
    Cccc.getSessionStatus [String.toList "Some text\nESC to interrupt\nMore text"] =
      .running := by
  decide

example :
    Cccc.getSessionStatus [String.toList "│ Do you want to continue?"] =
      .awaitingInput := by
  decide

example :
    Cccc.getSessionStatus [String.toList "Some text\n   \n"] = .idle := by decide

example :
    Cccc.getSessionStatus [String.toList "\x1b[31mESC to interrupt\x1b[0m"] =
      .running := by
  decide

example :
    Cccc.getSessionPreview [String.toList "│ Some text │\n╭───╮\nActual content"] =
      String.toList "Actual content" := by
  decide

example :
    Cccc.getSessionPreview [String.toList "Text   with    multiple     spaces"] =
      String.toList "Text with multiple spaces" := by
  decide

namespace Cccc

/-! ### Shared lemmas -/

theorem isEmpty_eq_of_lastN_eq {xs ys : List (List Char)}
    (h : lastN 100 xs = lastN 100 ys) : xs.isEmpty = ys.isEmpty := by
  have hlen : ∀ zs : List (List Char), (lastN 100 zs).length = zs.length - (zs.length - 100) := by
    intro zs
    simp [lastN]
  cases hx : xs with
  | nil =>
    cases hy : ys with
    | nil => rfl
    | cons b bs =>
      exfalso
      have h1 : (lastN 100 xs).length = 0 := by simp [hx, lastN]
      have h2 : (lastN 100 ys).length = ys.length - (ys.length - 100) := hlen ys
      have h3 : 0 < ys.length := by simp [hy]
      rw [h, h2] at h1
      omega
  | cons a as =>
    cases hy : ys with
    | nil =>
      exfalso
      have h1 : (lastN 100 ys).length = 0 := by simp [hy, lastN]
      have h2 : (lastN 100 xs).length = xs.length - (xs.length - 100) := hlen xs
      have h3 : 0 < xs.length := by simp [hx]
      rw [← h, h2] at h1
      omega
    | cons b bs => rfl

theorem scanStatusLines_skip (pre : List (List Char)) (l : List Char)
    (rest : List (List Char))
    (hpre : ∀ p ∈ pre, matchesRunning p = false ∧ matchesAwaiting p = false) :
    scanStatusLines (pre ++ l :: rest) = scanStatusLines (l :: rest) := by
  induction pre with
  | nil => rfl
  | cons p ps ih =>
    have hp := hpre p (List.mem_cons_self p ps)
    have hrec : ∀ q ∈ ps, matchesRunning q = false ∧ matchesAwaiting q = false :=
      fun q hq => hpre q (List.mem_cons_of_mem p hq)
    simp only [List.cons_append, scanStatusLines, hp.1, hp.2, if_neg, Bool.false_eq_true,
      if_false]
    exact ih hrec

/-! ### C6 -/

/-- C6: whenever the underlying tmux liveness query fails,
`hasCommandExited` returns `true` (fail-safe toward cleanup), rather
than propagating the error or returning `false`. -/
theorem hasCommandExited_true_on_query_failure (e : String) :
    hasCommandExited (.error e) = true := rfl

/-! ### C5 (corrected) -/

/-- C5 counterexample: with capture cursor 5 and a pane history of 3
lines (so no new output exists), `captureIncrementalOutput` returns
empty output but cursor 3, not the unchanged cursor 5 the claim
requires. -/
theorem captureIncrementalOutput_changes_cursor_cex :
    5 ≥ ([String.toList "a", String.toList "b", String.toList "c"] : List (List Char)).length ∧
    (captureIncrementalOutput 5
      [String.toList "a", String.toList "b", String.toList "c"]).1 = [] ∧
    (captureIncrementalOutput 5
      [String.toList "a", String.toList "b", String.toList "c"]).2 ≠ 5 := by
  decide

/-- C5 (amended): when the recorded cursor is at or beyond the history
size, `captureIncrementalOutput` returns empty text together with the
history size as the new cursor; in particular when the cursor equals the
history size (the only situation a monotonically-maintained cursor can
reach without external truncation) the cursor is unchanged, so
already-seen lines are never re-returned. -/
theorem captureIncrementalOutput_no_new_output (cursor : Nat)
    (history : List (List Char)) (h : cursor ≥ history.length) :
    captureIncrementalOutput cursor history = ([], history.length) ∧
    (cursor = history.length →
      (captureIncrementalOutput cursor history).2 = cursor) := by
  constructor
  · simp [captureIncrementalOutput, h]
  · intro hc
    simp [captureIncrementalOutput, h, hc]

/-- C5 witness: cursor 2 with a 2-line history yields empty output and
the unchanged cursor 2. -/
theorem captureIncrementalOutput_no_new_output_witness :
    captureIncrementalOutput 2 [String.toList "a", String.toList "b"] =
      ([], 2) ∧
    (captureIncrementalOutput 2 [String.toList "a", String.toList "b"]).2 = 2 := by
  have h := captureIncrementalOutput_no_new_output 2
    [String.toList "a", String.toList "b"] (by decide)
  exact ⟨h.1, h.2 (by decide)⟩

/-! ### C4 -/

/-- C4: when the filtered, whitespace-normalized preview text of the
last 10 chunks exceeds 200 characters, `getSessionPreview` returns the
ellipsis marker followed by exactly the trailing 200 characters — 201
characters in total; when the text is at most 200 characters it is
returned unchanged. -/
theorem getSessionPreview_truncation (outputs : List (List Char)) :
    ((previewText outputs).length > 200 →
      getSessionPreview outputs = '…' :: lastN 200 (previewText outputs) ∧
      (getSessionPreview outputs).length = 201) ∧
    ((previewText outputs).length ≤ 200 →
      getSessionPreview outputs = previewText outputs) := by
  by_cases he : outputs.isEmpty
  · have hnil : outputs = [] := by
      cases outputs with
      | nil => rfl
      | cons a as => simp [List.isEmpty] at he
    subst hnil
    refine ⟨fun h => absurd h (by decide), fun _ => by decide⟩
  · have he' : outputs.isEmpty = false := by
      cases hb : outputs.isEmpty with
      | false => rfl
      | true => exact absurd hb he
    constructor
    · intro h
      have h200 : ¬ (previewText outputs).length ≤ SESSION_PREVIEW_LENGTH := by
        simp only [SESSION_PREVIEW_LENGTH]
        omega
      have hform : getSessionPreview outputs = '…' :: lastN 200 (previewText outputs) := by
        simp only [getSessionPreview, he', Bool.false_eq_true, if_false,
          SESSION_PREVIEW_LENGTH]
        rw [if_neg (by omega : ¬ (previewText outputs).length ≤ 200)]
      refine ⟨hform, ?_⟩
      rw [hform]
      simp only [List.length_cons, lastN, List.length_drop]
      omega
    · intro h
      simp only [getSessionPreview, he', Bool.false_eq_true, if_false,
        SESSION_PREVIEW_LENGTH]
      rw [if_pos h]

/-- C4 witness: a single 250-character chunk is truncated to the ellipsis
plus the trailing 200 characters (201 characters), and a short chunk is
returned unchanged. -/
theorem getSessionPreview_truncation_witness :
    ((previewText [List.replicate 250 'a']).length > 200 ∧
      getSessionPreview [List.replicate 250 'a'] =
        '…' :: lastN 200 (previewText [List.replicate 250 'a']) ∧
      (getSessionPreview [List.replicate 250 'a']).length = 201) ∧
    ((previewText [String.toList "hi"]).length ≤ 200 ∧
      getSessionPreview [String.toList "hi"] = previewText [String.toList "hi"]) := by
  have h1 := (getSessionPreview_truncation [List.replicate 250 'a']).1 (by decide)
  have h2 := (getSessionPreview_truncation [String.toList "hi"]).2 (by decide)
  exact ⟨⟨by decide, h1⟩, ⟨by decide, h2⟩⟩

end Cccc

namespace Cccc

/-! ### C2 (corrected) -/

/-- C2 counterexample: the buffer `["Enter your name:\n"]` is non-empty
and its last non-blank line (after stripping formatting codes) ends with
`:`, yet `getSessionStatus` returns Idle, not Awaiting Input — the code
inspects only the literal final line, which here is the empty segment
after the trailing newline. -/
theorem getSessionStatus_trailing_newline_cex :
    ([String.toList "Enter your name:\n"] : List (List Char)) ≠ [] ∧
    endsWithChar (jsTrim (specLastNonBlankLine [String.toList "Enter your name:\n"])) ':' = true ∧
    getSessionStatus [String.toList "Enter your name:\n"] = .idle := by
  decide

/-- C2 (amended): for every non-empty chunk buffer whose LITERAL last
line (after stripping terminal formatting codes), once trimmed, is
non-empty and ends with `:` or `?`, `getSessionStatus` returns Awaiting
Input; a buffer ending in a newline makes the literal last line blank
and the check does not fire.  In particular feeding the chunk
`"Enter your name:"` yields Awaiting Input (witness). -/
theorem getSessionStatus_prompt_last_line (outputs : List (List Char))
    (h0 : outputs ≠ [])
    (h1 : ¬(jsTrim (((statusLines outputs).getLast?).getD [])).isEmpty = true)
    (h2 : endsWithChar (jsTrim (((statusLines outputs).getLast?).getD [])) ':' = true ∨
          endsWithChar (jsTrim (((statusLines outputs).getLast?).getD [])) '?' = true) :
    getSessionStatus outputs = .awaitingInput := by
  have he : outputs.isEmpty = false := by
    cases outputs with
    | nil => exact absurd rfl h0
    | cons a as => rfl
  have hcheck : lastLinePromptCheck outputs = true := by
    have hne : (jsTrim (((statusLines outputs).getLast?).getD [])).isEmpty = false := by
      cases hb : (jsTrim (((statusLines outputs).getLast?).getD [])).isEmpty with
      | false => rfl
      | true => exact absurd hb h1
    cases h2 with
    | inl h => simp [lastLinePromptCheck, hne, h]
    | inr h => simp [lastLinePromptCheck, hne, h]
  simp only [getSessionStatus, he, Bool.false_eq_true, if_false, hcheck, if_true]

/-- C2 witness: `"Enter your name:"` yields Awaiting Input. -/
theorem getSessionStatus_prompt_last_line_witness :
    getSessionStatus [String.toList "Enter your name:"] = .awaitingInput :=
  getSessionStatus_prompt_last_line [String.toList "Enter your name:"]
    (by decide) (by decide) (by decide)

/-! ### C3 (corrected) -/

/-- C3 counterexample: in the buffer
`["esc to interrupt\n│ do you want\nx"]` the trailing-punctuation check
does not fire and a line in the window matches a running pattern, yet
`getSessionStatus` returns Awaiting Input (the more recent
awaiting-input line wins), not Running as the claim requires. -/
theorem getSessionStatus_running_precedence_cex :
    (∃ line ∈ statusLines [String.toList "esc to interrupt\n│ do you want\nx"],
      matchesRunning line = true) ∧
    lastLinePromptCheck [String.toList "esc to interrupt\n│ do you want\nx"] = false ∧
    getSessionStatus [String.toList "esc to interrupt\n│ do you want\nx"] =
      .awaitingInput := by
  decide

/-- C3 (amended): when the trailing-punctuation check does not fire, the
lines of the window are scanned most-recent-first and the FIRST line
matching either pattern set decides the status: Running if that line
matches a running pattern (running beats awaiting-input only within the
same line), otherwise Awaiting Input.  An older running line does not
override a more recent awaiting-input line. -/
theorem getSessionStatus_scan_first_match (outputs : List (List Char))
    (pre rest : List (List Char)) (line : List Char)
    (h0 : outputs ≠ [])
    (hp : lastLinePromptCheck outputs = false)
    (hsplit : (statusLines outputs).reverse = pre ++ line :: rest)
    (hpre : ∀ p ∈ pre, matchesRunning p = false ∧ matchesAwaiting p = false)
    (hl : matchesRunning line = true ∨ matchesAwaiting line = true) :
    getSessionStatus outputs =
      if matchesRunning line then .running else .awaitingInput := by
  have he : outputs.isEmpty = false := by
    cases outputs with
    | nil => exact absurd rfl h0
    | cons a as => rfl
  simp only [getSessionStatus, he, Bool.false_eq_true, if_false, hp, hsplit]
  rw [scanStatusLines_skip pre line rest hpre]
  cases hr : matchesRunning line with
  | true => simp [scanStatusLines, hr]
  | false =>
    have ha : matchesAwaiting line = true := by
      cases hl with
      | inl h => exact absurd h (by simp [hr])
      | inr h => exact h
    simp [scanStatusLines, hr, ha]

/-- C3 witness: with lines `x` (no match) then `esc to interrupt`
(running) scanning most-recent-first, the status is Running. -/
theorem getSessionStatus_scan_first_match_witness :
    getSessionStatus [String.toList "\u2502 do you want\nesc to interrupt\nx"] =
      .running := by
  have h := getSessionStatus_scan_first_match
    [String.toList "\u2502 do you want\nesc to interrupt\nx"]
    [String.toList "x"] [String.toList "\u2502 do you want"]
    (String.toList "esc to interrupt")
    (by decide) (by decide) (by decide) (by decide) (by decide)
  simpa using h

end Cccc


namespace Cccc

/-! ### C8 -/

/-- C8: `getSessionStatus` depends only on the last 100 chunks of the
buffer — any two buffers agreeing on their last 100 chunks classify
identically; in particular a buffer of 101 chunks where only chunk 0
contains a running marker and the remaining 100 chunks are plain idle
text classifies as Idle. -/
theorem getSessionStatus_depends_on_last_100 :
    (∀ xs ys : List (List Char), lastN 100 xs = lastN 100 ys →
      getSessionStatus xs = getSessionStatus ys) ∧
    getSessionStatus
      (String.toList "ESC to interrupt" ::
        List.replicate 100 (String.toList "idle")) = .idle := by
  constructor
  · intro xs ys h
    have hse : statusLines xs = statusLines ys := by
      unfold statusLines
      rw [h]
    have hie := isEmpty_eq_of_lastN_eq h
    simp only [getSessionStatus, lastLinePromptCheck, hse, hie]
  · decide

/-- C8 witness: dropping the out-of-window running chunk 0 does not
change the classification, since the last 100 chunks agree. -/
theorem getSessionStatus_depends_on_last_100_witness :
    getSessionStatus
      (String.toList "ESC to interrupt" ::
        List.replicate 100 (String.toList "idle")) =
    getSessionStatus (List.replicate 100 (String.toList "idle")) :=
  getSessionStatus_depends_on_last_100.1 _ _ (by decide)

end Cccc

namespace Cccc

/-! ### Shared lemma for `appendOutput` -/

theorem appendOutput_forall₂ (sessions : List Session) (sessionId : String)
    (out : List Char) (now : Nat) :
    List.Forall₂ (fun s s' =>
      (s.id ≠ sessionId → s' = s) ∧
      (s.id = sessionId → s' =
        { s with outputs := s.outputs ++ [out], lastUpdated := now,
                 status := getSessionStatus (s.outputs ++ [out]),
                 preview := getSessionPreview (s.outputs ++ [out]) }))
      sessions (appendOutput sessions sessionId out now) := by
  induction sessions with
  | nil => exact List.Forall₂.nil
  | cons s ss ih =>
    refine List.Forall₂.cons ?_ ih
    by_cases hid : s.id = sessionId
    · constructor
      · intro hne
        exact absurd hid hne
      · intro _
        simp [appendOutput, hid]
    · constructor
      · intro _
        have hbeq : (s.id == sessionId) = false := by
          simp [hid]
        simp [appendOutput, hbeq]
      · intro heq
        exact absurd heq hid

theorem appendOutput_absent (sessions : List Session) (sessionId : String)
    (out : List Char) (now : Nat)
    (h : ∀ s ∈ sessions, s.id ≠ sessionId) :
    appendOutput sessions sessionId out now = sessions := by
  induction sessions with
  | nil => rfl
  | cons s ss ih =>
    have hbeq : (s.id == sessionId) = false := by
      simp [h s (List.mem_cons_self s ss)]
    have hrec := ih (fun q hq => h q (List.mem_cons_of_mem s hq))
    simp only [appendOutput, List.map_cons, hbeq, Bool.false_eq_true, if_false] at hrec ⊢
    rw [hrec]

/-! ### C10 -/

/-- C10: `appendOutput(id, chunk)` modifies only the session whose id
matches, and of that session only `outputs` (one chunk appended at the
end), `lastUpdated`, `status`, and `preview`; its id, backend handle,
working directory, branch, repo name, settings metadata, disposables and
timer, and every other session, are unchanged; if no session has the
given id the registry is unchanged. -/
theorem appendOutput_frame (sessions : List Session) (sessionId : String)
    (out : List Char) (now : Nat) :
    ((∀ s ∈ sessions, s.id ≠ sessionId) →
      appendOutput sessions sessionId out now = sessions) ∧
    List.Forall₂ (fun s s' =>
      (s.id ≠ sessionId → s' = s) ∧
      (s.id = sessionId →
        s'.id = s.id ∧ s'.tmuxSession = s.tmuxSession ∧
        s'.workingDirectory = s.workingDirectory ∧ s'.branch = s.branch ∧
        s'.repoName = s.repoName ∧ s'.settingsPath = s.settingsPath ∧
        s'.settingsName = s.settingsName ∧
        s'.dataDisposable = s.dataDisposable ∧
        s'.exitCheckInterval = s.exitCheckInterval ∧
        s'.outputs = s.outputs ++ [out] ∧ s'.lastUpdated = now ∧
        s'.status = getSessionStatus (s.outputs ++ [out]) ∧
        s'.preview = getSessionPreview (s.outputs ++ [out])))
      sessions (appendOutput sessions sessionId out now) := by
  constructor
  · exact appendOutput_absent sessions sessionId out now
  · refine (appendOutput_forall₂ sessions sessionId out now).imp ?_
    intro s s' hss
    refine ⟨hss.1, ?_⟩
    intro heq
    rw [hss.2 heq]
    exact ⟨rfl, rfl, rfl, rfl, rfl, rfl, rfl, rfl, rfl, rfl, rfl, rfl, rfl⟩

/-- C10 witness: appending under an id held by no session leaves the
registry unchanged. -/
theorem appendOutput_frame_witness :
    appendOutput [sampleSession] "other" (String.toList "x") 5 =
      [sampleSession] :=
  (appendOutput_frame [sampleSession] "other" (String.toList "x") 5).1
    (by decide)

/-! ### C1 -/

/-- C1: on delivery of an output chunk for a session, the chunk is
appended to that session's own buffer unconditionally, and the chunk's
bytes are written to the real terminal if and only if the `isActive`
predicate holds at delivery time — the displayed screen is the session
screen and the current session id equals that session's id. -/
theorem deliverOutputChunk_gating (sessionId : String) (data : List Char)
    (now : Nat) (st : AppState) :
    ((deliverOutputChunk sessionId data now st).sessions =
      appendOutput st.sessions sessionId data now) ∧
    List.Forall₂ (fun s s' => s.id = sessionId →
        s'.outputs = s.outputs ++ [data])
      st.sessions (deliverOutputChunk sessionId data now st).sessions ∧
    ((st.currentScreen = Screen.claude ∧ st.currentSessionId = some sessionId) →
      (deliverOutputChunk sessionId data now st).terminalOut =
        st.terminalOut ++ data) ∧
    (¬(st.currentScreen = Screen.claude ∧ st.currentSessionId = some sessionId) →
      (deliverOutputChunk sessionId data now st).terminalOut = st.terminalOut) ∧
    (isActive sessionId st = true ↔
      (st.currentScreen = Screen.claude ∧ st.currentSessionId = some sessionId)) := by
  have hact : isActive sessionId st = true ↔
      (st.currentScreen = Screen.claude ∧ st.currentSessionId = some sessionId) := by
    simp [isActive]
  have hsess : (deliverOutputChunk sessionId data now st).sessions =
      appendOutput st.sessions sessionId data now := by
    simp only [deliverOutputChunk]
    split <;> rfl
  refine ⟨hsess, ?_, ?_, ?_, hact⟩
  · rw [hsess]
    refine (appendOutput_forall₂ st.sessions sessionId data now).imp ?_
    intro s s' hss heq
    rw [hss.2 heq]
  · intro hyp
    have hactive : isActive sessionId
        { st with sessions := appendOutput st.sessions sessionId data now } = true := by
      simpa [isActive] using hyp
    simp only [deliverOutputChunk, hactive, if_true]
  · intro hyp
    have hactive : isActive sessionId
        { st with sessions := appendOutput st.sessions sessionId data now } = false := by
      have : ¬ (isActive sessionId
          { st with sessions := appendOutput st.sessions sessionId data now } = true) := by
        simpa [isActive] using hyp
      cases hb : isActive sessionId
          { st with sessions := appendOutput st.sessions sessionId data now } with
      | false => rfl
      | true => exact absurd hb this
    simp only [deliverOutputChunk, hactive, Bool.false_eq_true, if_false]

/-- C1 witness: with the session screen displayed and the matching
current session id, delivered bytes reach the real terminal. -/
theorem deliverOutputChunk_gating_witness :
    (deliverOutputChunk "session-1" (String.toList "hi") 7 activeState).terminalOut =
      activeState.terminalOut ++ String.toList "hi" :=
  (deliverOutputChunk_gating "session-1" (String.toList "hi") 7 activeState).2.2.1
    (by decide)

end Cccc

namespace Cccc

/-! ### C7 -/

/-- C7: when session creation fails, the failure carries one of three
distinct messages — backend tool missing, wrapped command binary
missing, or a generic creation failure wrapping the underlying message —
the error surfaces to the caller immediately (the launch bails out to
the menu), and no registry entry is added: the sessions list after a
failed launch equals the sessions list before it. -/
theorem launchNewSession_failure (st : AppState) (args : List String)
    (env : TmuxEnv) (wd sp sn br rn : Option String) (mh th now : Nat)
    (h : env.createOk = false) :
    (∃ msg,
      (∀ name : String,
        createTmuxSession name (commandOfArgs args) env = .error msg) ∧
      (msg = "tmux is not installed. Please install tmux to use this application." ∨
       msg = "Command \x27" ++ firstWord (commandOfArgs args) ++
         "\x27 not found. Make sure Claude CLI is installed and in your PATH." ∨
       msg = "Failed to create tmux session: " ++ env.createErrMsg)) ∧
    (launchNewSession st args env wd sp sn br rn mh th now).sessions =
      st.sessions ∧
    (launchNewSession st args env wd sp sn br rn mh th now).currentScreen =
      .menu := by
  obtain ⟨msg, hmsg, hkind⟩ :
      ∃ msg, (∀ name : String,
        createTmuxSession name (commandOfArgs args) env = .error msg) ∧
      (msg = "tmux is not installed. Please install tmux to use this application." ∨
       msg = "Command \x27" ++ firstWord (commandOfArgs args) ++
         "\x27 not found. Make sure Claude CLI is installed and in your PATH." ∨
       msg = "Failed to create tmux session: " ++ env.createErrMsg) := by
    cases hti : env.tmuxInstalled with
    | false =>
      exact ⟨_, fun name => by simp [createTmuxSession, h, hti], Or.inl rfl⟩
    | true =>
      cases hcf : env.commandFound with
      | false =>
        exact ⟨_, fun name => by simp [createTmuxSession, h, hti, hcf],
          Or.inr (Or.inl rfl)⟩
      | true =>
        exact ⟨_, fun name => by simp [createTmuxSession, h, hti, hcf],
          Or.inr (Or.inr rfl)⟩
  refine ⟨⟨msg, hmsg, hkind⟩, ?_, ?_⟩
  · simp [launchNewSession, generateSessionId,
      hmsg (mkSessionId (st.sessionCounter + 1)), clearScreen, switchToMenu]
  · simp [launchNewSession, generateSessionId,
      hmsg (mkSessionId (st.sessionCounter + 1)), clearScreen, switchToMenu]

/-- C7 witness: a failed launch in the all-failures environment leaves
the (initially empty) sessions list unchanged and lands on the menu. -/
theorem launchNewSession_failure_witness :
    (launchNewSession initialAppState [] failEnv
        none none none none none 0 0 0).sessions =
      initialAppState.sessions ∧
    (launchNewSession initialAppState [] failEnv
        none none none none none 0 0 0).currentScreen = .menu := by
  have h := launchNewSession_failure initialAppState [] failEnv
    none none none none none 0 0 0 (by decide)
  exact ⟨h.2.1, h.2.2⟩

/-! ### C9 -/

theorem decDigitVal_digitChar (m : Nat) (h : m < 10) :
    decDigitVal (Nat.digitChar m) = m := by
  interval_cases m <;> rfl

theorem decFromDigits_append_digit (l : List Char) (c : Char) :
    decFromDigits (l ++ [c]) = decFromDigits l * 10 + decDigitVal c := by
  simp [decFromDigits, List.foldl_append]

theorem decFromDigits_natToDecimal (n : Nat) :
    decFromDigits (natToDecimal n) = n := by
  induction n using Nat.strong_induction_on with
  | _ n ih =>
    rw [natToDecimal]
    split
    · next h =>
      simp [decFromDigits, decDigitVal_digitChar n h]
    · next h =>
      rw [decFromDigits_append_digit,
        ih (n / 10) (Nat.div_lt_self (by omega) (by omega)),
        decDigitVal_digitChar (n % 10) (Nat.mod_lt n (by omega))]
      omega

theorem natToDecimal_inj {a b : Nat} (h : natToDecimal a = natToDecimal b) :
    a = b := by
  have h2 := congrArg decFromDigits h
  rwa [decFromDigits_natToDecimal, decFromDigits_natToDecimal] at h2

theorem mkSessionId_inj {a b : Nat} (h : mkSessionId a = mkSessionId b) :
    a = b := by
  unfold mkSessionId at h
  have hdata := congrArg String.data h
  simp only [String.data_append] at hdata
  exact natToDecimal_inj (List.append_cancel_left hdata)

theorem registryStep_inv (st : AppState) (op : RegistryOp)
    (h : RegistryInv st) : RegistryInv (registryStep st op) := by
  obtain ⟨hub, hnd⟩ := h
  cases op with
  | remove sid =>
    refine ⟨?_, ?_⟩
    · intro s hs
      exact hub s (List.mem_of_mem_filter hs)
    · exact hnd.sublist ((List.filter_sublist _).map _)
  | add template =>
    have hcnt : (registryStep st (.add template)).sessionCounter =
        st.sessionCounter + 1 := rfl
    have hsm : (registryStep st (.add template)).sessions =
        st.sessions ++ [{ template with id := mkSessionId (st.sessionCounter + 1) }] :=
      rfl
    refine ⟨?_, ?_⟩
    · intro s hs
      rw [hsm] at hs
      rw [hcnt]
      rcases List.mem_append.mp hs with hmem | hmem
      · obtain ⟨k, hk1, hk2, hk3⟩ := hub s hmem
        exact ⟨k, hk1, by omega, hk3⟩
      · have hseq : s = { template with id := mkSessionId (st.sessionCounter + 1) } := by
          simpa using hmem
        exact ⟨st.sessionCounter + 1, by omega, le_refl _, by rw [hseq]⟩
    · rw [hsm, List.map_append]
      refine List.Nodup.append hnd (List.nodup_singleton _) ?_
      intro x hx1 hx2
      simp only [List.map_cons, List.map_nil, List.mem_singleton] at hx2
      obtain ⟨s, hs, hsid⟩ := List.mem_map.mp hx1
      obtain ⟨k, hk1, hk2, hk3⟩ := hub s hs
      rw [hx2] at hsid
      rw [hk3] at hsid
      have := mkSessionId_inj hsid
      omega

theorem registrySteps_inv (ops : List RegistryOp) (st : AppState)
    (h : RegistryInv st) : RegistryInv (ops.foldl registryStep st) := by
  induction ops generalizing st with
  | nil => exact h
  | cons op ops ih => exact ih _ (registryStep_inv st op h)

theorem initialAppState_inv : RegistryInv initialAppState := by
  constructor
  · intro s hs
    simp [initialAppState] at hs
  · simp [initialAppState]

/-- C9: for every sequence of add and remove operations on the session
registry (adds stamping ids from the monotonic generator, as the
launcher does), the registry never holds two sessions with the same id;
and `removeSession` on an id absent from the registry is a total
function that leaves the registry unchanged. -/
theorem registry_nodup_and_remove_absent (ops : List RegistryOp) :
    ((registryRun ops).sessions.map Session.id).Nodup ∧
    ∀ (st : AppState) (sessionId : String),
      (∀ s ∈ st.sessions, s.id ≠ sessionId) →
      removeSession st sessionId = st := by
  constructor
  · exact (registrySteps_inv ops initialAppState initialAppState_inv).2
  · intro st sid hall
    unfold removeSession
    have hfil : st.sessions.filter (fun s => !(s.id == sid)) = st.sessions := by
      apply List.filter_eq_self.mpr
      intro s hs
      simp [hall s hs]
    rw [hfil]

/-- C9 witness: one add followed by a remove of a missing id keeps the
ids duplicate-free, and removing an absent id from a concrete state is
the identity. -/
theorem registry_nodup_and_remove_absent_witness :
    ((registryRun [RegistryOp.add sampleSession,
        RegistryOp.remove "nope"]).sessions.map Session.id).Nodup ∧
    removeSession activeState "other" = activeState := by
  have h := registry_nodup_and_remove_absent
    [RegistryOp.add sampleSession, RegistryOp.remove "nope"]
  exact ⟨h.1, h.2 activeState "other" (by decide)⟩

end Cccc
